import Mathlib

/-!
Verification of the fbstream framebuffer-to-HTTP streaming program.

The definitions below are a shallow embedding of `src/fbstream.py`:
bytes are modelled as `List Nat`, the per-connection generator
`StreamHandler.stream.get_frame` as an event trace, the configuration
resolver `ConfigHandler.check_args` as a pure function over the
command-line arguments and the sysfs descriptor contents, and Python
exceptions as an explicit error type.
-/

set_option autoImplicit false

/-! ### Byte strings and the multipart chunk (fbstream.py lines 114-126) -/

/-- Bytes of a Python byte-string literal, one `Nat` per character. -/
def strToBytes (s : String) : List Nat := s.data.map Char.toNat

/-- The CRLF line break used by the multipart framing. -/
def CRLF : List Nat := strToBytes "\r\n"

/-- The multipart boundary marker scanned for inside chunks. -/
def boundaryMarker : List Nat := strToBytes "--frame"

/-- The per-chunk header line, without its line break. -/
def contentTypeHdr : List Nat := strToBytes "Content-Type: image/png"

/-- One chunk yielded by `get_frame`: the merged byte literal
`b'--frame\r\nContent-Type: image/png\r\n\r\n'`, then the PNG-encoded
image bytes, then `b'\r\n'` (fbstream.py lines 125-126). -/
def chunkBytes (png : List Nat) : List Nat :=
  strToBytes "--frame\r\nContent-Type: image/png\r\n\r\n" ++ png ++ strToBytes "\r\n"

/-- Number of start positions at which `p` occurs as a contiguous
substring of `l` (the "scan" of the spec's framing property). -/
def countOcc (p : List Nat) : List Nat → Nat
  | [] => 0
  | a :: t => (if p.isPrefixOf (a :: t) then 1 else 0) + countOcc p t

/-- Appending bytes that do not occur in `p` cannot create or destroy a
match of `p` at the front. -/
theorem isPrefixOf_append_notmem (p : List Nat) :
    ∀ (l y : List Nat), (∀ b ∈ y, b ∉ p) →
      p.isPrefixOf (l ++ y) = p.isPrefixOf l := by
  induction p with
  | nil => intro l y _; simp [List.isPrefixOf]
  | cons a p1 ih =>
    intro l y hy
    cases l with
    | nil =>
      cases y with
      | nil => rfl
      | cons b y1 =>
        have hb : b ∉ a :: p1 := hy b (by simp)
        have hab : (a == b) = false := by
          rw [beq_eq_false_iff_ne]
          intro h
          exact hb (h ▸ List.mem_cons_self a p1)
        simp [List.isPrefixOf, hab]
    | cons c l1 =>
      have hy1 : ∀ b ∈ y, b ∉ p1 := by
        intro b hb hm
        exact hy b hb (List.mem_cons_of_mem a hm)
      simp [List.isPrefixOf, ih l1 y hy1]

/-- If the last byte of `l` does not occur in `p`, a match of `p`
starting at the front of `l` cannot extend past `l` into `y`. -/
theorem isPrefixOf_append_getLast (p : List Nat) :
    ∀ (l y : List Nat) (c : Nat), l.getLast? = some c → c ∉ p →
      p.isPrefixOf (l ++ y) = p.isPrefixOf l := by
  induction p with
  | nil => intro l y c _ _; simp [List.isPrefixOf]
  | cons a p1 ih =>
    intro l y c hl hc
    cases l with
    | nil => simp at hl
    | cons d l1 =>
      cases l1 with
      | nil =>
        have hcd : d = c := by simpa using hl
        have had : (a == d) = false := by
          rw [beq_eq_false_iff_ne]
          intro h
          apply hc
          rw [← hcd, ← h]
          exact List.mem_cons_self a p1
        simp [List.isPrefixOf, had]
      | cons e l2 =>
        have hl1 : (e :: l2).getLast? = some c := by
          simpa [List.getLast?_cons_cons] using hl
        have hc1 : c ∉ p1 := fun hm => hc (List.mem_cons_of_mem a hm)
        have hstep := ih (e :: l2) y c hl1 hc1
        simp only [List.cons_append] at hstep
        simp [List.isPrefixOf, hstep]

/-- Occurrence counting distributes over an append whose right part
contains no byte of the pattern. -/
theorem countOcc_append_notmem (p y : List Nat) (hy : ∀ b ∈ y, b ∉ p) :
    ∀ l, countOcc p (l ++ y) = countOcc p l + countOcc p y := by
  intro l
  induction l with
  | nil => simp [countOcc]
  | cons a t ih =>
    have h1 : p.isPrefixOf (a :: (t ++ y)) = p.isPrefixOf (a :: t) := by
      have h0 := isPrefixOf_append_notmem p (a :: t) y hy
      simpa using h0
    have e1 : countOcc p ((a :: t) ++ y)
        = (if p.isPrefixOf (a :: (t ++ y)) then 1 else 0) + countOcc p (t ++ y) := rfl
    have e2 : countOcc p (a :: t)
        = (if p.isPrefixOf (a :: t) then 1 else 0) + countOcc p t := rfl
    rw [e1, e2, h1, ih]
    omega

/-- Occurrence counting distributes over an append whose left part ends
in a byte that does not occur in the pattern. -/
theorem countOcc_append_getLast (p : List Nat) (c : Nat) (hc : c ∉ p) :
    ∀ (l y : List Nat), l.getLast? = some c →
      countOcc p (l ++ y) = countOcc p l + countOcc p y := by
  intro l
  induction l with
  | nil => intro y hl; simp at hl
  | cons a t ih =>
    intro y hl
    have h1 : p.isPrefixOf (a :: (t ++ y)) = p.isPrefixOf (a :: t) := by
      have h0 := isPrefixOf_append_getLast p (a :: t) y c hl hc
      simpa using h0
    have e1 : countOcc p ((a :: t) ++ y)
        = (if p.isPrefixOf (a :: (t ++ y)) then 1 else 0) + countOcc p (t ++ y) := rfl
    have e2 : countOcc p (a :: t)
        = (if p.isPrefixOf (a :: t) then 1 else 0) + countOcc p t := rfl
    cases t with
    | nil =>
      rw [e1, e2, h1]
      simp [countOcc]
    | cons e l2 =>
      have hl1 : (e :: l2).getLast? = some c := by
        simpa [List.getLast?_cons_cons] using hl
      rw [e1, e2, h1, ih y hl1]
      omega

/-- The fixed 36-byte prefix of every chunk. -/
def chunkHead : List Nat := strToBytes "--frame\r\nContent-Type: image/png\r\n\r\n"

theorem chunkBytes_decompose (png : List Nat) :
    chunkBytes png = chunkHead ++ (png ++ CRLF) := by
  simp [chunkBytes, chunkHead, CRLF, List.append_assoc]

theorem chunkHead_decompose :
    chunkHead = boundaryMarker ++ CRLF ++ contentTypeHdr ++ CRLF ++ CRLF := by
  decide

theorem chunkHead_getLast : chunkHead.getLast? = some 10 := by decide

/-- Claim C1: every chunk yielded by the per-connection frame generator
is exactly one `--frame` boundary marker followed by CRLF, one
`Content-Type: image/png` header line, a blank line, the PNG bytes and a
trailing CRLF; provided the PNG payload itself contains no boundary
marker and no header line, a scan of the chunk finds exactly one of
each. -/
theorem chunk_framing (png : List Nat)
    (h1 : countOcc boundaryMarker png = 0)
    (h2 : countOcc contentTypeHdr png = 0) :
    chunkBytes png
      = boundaryMarker ++ CRLF ++ contentTypeHdr ++ CRLF ++ CRLF ++ png ++ CRLF
    ∧ countOcc boundaryMarker (chunkBytes png) = 1
    ∧ countOcc contentTypeHdr (chunkBytes png) = 1 := by
  have hdec : chunkBytes png = chunkHead ++ (png ++ CRLF) := chunkBytes_decompose png
  refine ⟨?_, ?_, ?_⟩
  · rw [hdec, chunkHead_decompose]
    simp [List.append_assoc]
  · rw [hdec]
    rw [countOcc_append_getLast boundaryMarker 10 (by decide) chunkHead (png ++ CRLF)
      chunkHead_getLast]
    rw [countOcc_append_notmem boundaryMarker CRLF (by decide) png]
    have hA : countOcc boundaryMarker chunkHead = 1 := by decide
    have hB : countOcc boundaryMarker CRLF = 0 := by decide
    omega
  · rw [hdec]
    rw [countOcc_append_getLast contentTypeHdr 10 (by decide) chunkHead (png ++ CRLF)
      chunkHead_getLast]
    rw [countOcc_append_notmem contentTypeHdr CRLF (by decide) png]
    have hA : countOcc contentTypeHdr chunkHead = 1 := by decide
    have hB : countOcc contentTypeHdr CRLF = 0 := by decide
    omega

/-- The 8-byte PNG signature, a concrete payload for the witness. -/
def pngSig : List Nat := [137, 80, 78, 71, 13, 10, 26, 10]

/-- Witness for C1 at the concrete PNG-signature payload. -/
theorem chunk_framing_witness :
    countOcc boundaryMarker pngSig = 0
    ∧ countOcc contentTypeHdr pngSig = 0
    ∧ countOcc boundaryMarker (chunkBytes pngSig) = 1
    ∧ countOcc contentTypeHdr (chunkBytes pngSig) = 1 :=
  ⟨by decide, by decide,
    (chunk_framing pngSig (by decide) (by decide)).2.1,
    (chunk_framing pngSig (by decide) (by decide)).2.2⟩

/-! ### Configuration values and the argument checker
(`ConfigHandler.check_args`, fbstream.py lines 253-291) -/

/-- A merged configuration value: command line, config file and defaults
all yield strings; device auto-detection stores parsed integers. -/
inductive ConfigVal
  | str (s : String)
  | int (n : Int)
deriving DecidableEq, Repr

/-- Python's `value == 'auto'` test on a configuration value. -/
def ConfigVal.isAuto : ConfigVal → Bool
  | .str s => s == "auto"
  | .int _ => false

/-- True when the value is an integer (as `numpy.memmap` shape needs). -/
def ConfigVal.isInt : ConfigVal → Bool
  | .str _ => false
  | .int _ => true

/-- The merged argument namespace handed to `check_args`. -/
structure Args where
  device : String
  width : ConfigVal
  height : ConfigVal
  depth : ConfigVal
  minthreads : String
  maxthreads : String
deriving DecidableEq, Repr

/-- Python exceptions and exits that `check_args` and the stream setup
can produce. -/
inductive PyErr
  | nameError
  | valueError
  | typeError
  | sysExit (code : Nat)
deriving DecidableEq, Repr

/-- Contents of the device's sysfs descriptors; `none` models an
`OSError` on open/read. -/
structure SysFs where
  virtual_size : Option String
  bits_per_pixel : Option String
deriving DecidableEq, Repr

/-- Value of a decimal digit string. -/
def natOfDigits (s : List Char) : Nat :=
  s.foldl (fun acc c => acc * 10 + (c.toNat - 48)) 0

/-- Python's `str.strip()`: drop surrounding whitespace. -/
def pyStrip (cs : List Char) : List Char :=
  ((cs.dropWhile Char.isWhitespace).reverse.dropWhile Char.isWhitespace).reverse

/-- Python's `int(s)` on the characters of a decimal string: strips
surrounding whitespace, allows one sign, then requires at least one
digit; `none` models a `ValueError`. -/
def pyIntChars (cs : List Char) : Option Int :=
  match pyStrip cs with
  | '-' :: ds =>
    if ds.length > 0 && ds.all Char.isDigit then some (-(natOfDigits ds : Int)) else none
  | '+' :: ds =>
    if ds.length > 0 && ds.all Char.isDigit then some ((natOfDigits ds : Int)) else none
  | ds =>
    if ds.length > 0 && ds.all Char.isDigit then some ((natOfDigits ds : Int)) else none

/-- Python's `int(s)` on a string. -/
def pyInt (s : String) : Option Int := pyIntChars s.data

/-- Python's `s.split(',')`: split at every comma, keeping empty parts. -/
def splitOnComma : List Char → List (List Char)
  | [] => [[]]
  | c :: t =>
    match splitOnComma t with
    | [] => [[c]]
    | g :: gs => if c = ',' then [] :: g :: gs else (c :: g) :: gs

/-- Model of `width, height = [int(i) for i in f.read().split(',')]`
(fbstream.py line 276): all parts must parse as integers and there must
be exactly two of them, else a `ValueError` is raised. -/
def parseSizePair (content : String) : Option (Int × Int) :=
  match (splitOnComma content.data).map pyIntChars with
  | [some w, some h] => some (w, h)
  | _ => none

deriving instance DecidableEq for Except

/-- Outcome of one resolution step: the resulting argument namespace or
the raised exception, the number of descriptor reads attempted, and the
number of warnings logged. -/
structure StepResult where
  result : Except PyErr Args
  reads : Nat
  warnings : Nat
deriving DecidableEq, Repr

/-- The width/height block of `check_args` (fbstream.py lines 272-283):
when either field is `'auto'` it opens `virtual_size`; on `OSError` it
logs a warning, after which the assignment from the unbound local
`width`/`height` raises a `NameError`; malformed content raises an
uncaught `ValueError`; on success only the `'auto'` fields are
overwritten with the parsed integers. -/
def resolveSize (a : Args) (fs : SysFs) : StepResult :=
  if a.width.isAuto || a.height.isAuto then
    match fs.virtual_size with
    | none => ⟨.error .nameError, 1, 1⟩
    | some content =>
      match parseSizePair content with
      | none => ⟨.error .valueError, 1, 0⟩
      | some (w, h) =>
        ⟨.ok { a with
            width := if a.width.isAuto then .int w else a.width,
            height := if a.height.isAuto then .int h else a.height }, 1, 0⟩
  else ⟨.ok a, 0, 0⟩

/-- The depth block of `check_args` (fbstream.py lines 285-291): when
depth is `'auto'` it opens `bits_per_pixel`; on `OSError` it logs a
warning and leaves depth unchanged; otherwise it parses the first two
characters with `int`, raising `ValueError` when they do not parse. -/
def resolveDepth (a : Args) (fs : SysFs) : StepResult :=
  if a.depth.isAuto then
    match fs.bits_per_pixel with
    | none => ⟨.ok a, 1, 1⟩
    | some content =>
      match pyIntChars (content.data.take 2) with
      | none => ⟨.error .valueError, 1, 0⟩
      | some d => ⟨.ok { a with depth := .int d }, 1, 0⟩
  else ⟨.ok a, 0, 0⟩

/-- Combined geometry result of `check_args`. -/
structure GeoResult where
  result : Except PyErr Args
  sizeReads : Nat
  depthReads : Nat
  warnings : Nat
deriving DecidableEq, Repr

/-- The geometry portion of `check_args`: the width/height block runs
first and any exception it raises aborts the method before the depth
block runs. -/
def resolveGeometry (a : Args) (fs : SysFs) : GeoResult :=
  let s := resolveSize a fs
  match s.result with
  | .error e => ⟨.error e, s.reads, 0, s.warnings⟩
  | .ok a1 =>
    let d := resolveDepth a1 fs
    ⟨d.result, s.reads, d.reads, s.warnings + d.warnings⟩

/-- Full `check_args` (fbstream.py lines 253-291): the device and
thread-count checks run first (`int()` on a malformed thread count
raises `ValueError`; an empty device name leads to `sys.exit(1)`),
then the geometry blocks. -/
def check_args (a : Args) (fs : SysFs) : GeoResult :=
  let doExit := a.device == ""
  match pyInt a.minthreads with
  | none => ⟨.error .valueError, 0, 0, 0⟩
  | some _ =>
    match pyInt a.maxthreads with
    | none => ⟨.error .valueError, 0, 0, 0⟩
    | some _ =>
      if doExit then ⟨.error (.sysExit 1), 0, 0, 0⟩
      else resolveGeometry a fs

/-- Claim C2: with both width and height explicit, no `virtual_size`
read happens; with either `'auto'`, exactly one read happens, and when
it parses as two comma-separated integers the parsed values go only to
the fields that were `'auto'`, the other fields staying unchanged; with
depth `'auto'`, `bits_per_pixel` is read and its first two characters
are parsed as the new depth. -/
theorem check_args_geometry_reads (a : Args) (fs : SysFs) :
    (a.width.isAuto = false → a.height.isAuto = false →
      (resolveSize a fs).reads = 0 ∧ (resolveSize a fs).result = .ok a)
    ∧ (a.width.isAuto = true ∨ a.height.isAuto = true →
      (resolveSize a fs).reads = 1
      ∧ ∀ c w h, fs.virtual_size = some c → parseSizePair c = some (w, h) →
          ∃ a1, (resolveSize a fs).result = .ok a1
            ∧ (a.width.isAuto = true → a1.width = .int w)
            ∧ (a.width.isAuto = false → a1.width = a.width)
            ∧ (a.height.isAuto = true → a1.height = .int h)
            ∧ (a.height.isAuto = false → a1.height = a.height)
            ∧ a1.depth = a.depth ∧ a1.device = a.device)
    ∧ (a.depth.isAuto = true →
      (resolveDepth a fs).reads = 1
      ∧ ∀ c d, fs.bits_per_pixel = some c → pyIntChars (c.data.take 2) = some d →
          (resolveDepth a fs).result = .ok { a with depth := .int d }) := by
  refine ⟨?_, ?_, ?_⟩
  · intro hw hh
    simp [resolveSize, hw, hh]
  · intro hwh
    have hcond : (a.width.isAuto || a.height.isAuto) = true := by
      rcases hwh with h | h <;> simp [h]
    constructor
    · simp only [resolveSize, hcond, if_true]
      cases fs.virtual_size with
      | none => rfl
      | some content =>
        cases hp : parseSizePair content with
        | none => simp [hp]
        | some wh => cases wh with | mk w h => simp [hp]
    · intro c w h hc hp
      refine ⟨{ a with
          width := if a.width.isAuto then .int w else a.width,
          height := if a.height.isAuto then .int h else a.height }, ?_, ?_, ?_, ?_, ?_, rfl, rfl⟩
      · simp [resolveSize, hcond, hc, hp]
      · intro hw; simp [hw]
      · intro hw; simp [hw]
      · intro hh; simp [hh]
      · intro hh; simp [hh]
  · intro hd
    constructor
    · simp only [resolveDepth, hd, if_true]
      cases fs.bits_per_pixel with
      | none => rfl
      | some content =>
        cases hp : pyIntChars (content.data.take 2) with
        | none => simp [hp]
        | some d => simp [hp]
    · intro c d hc hp
      simp [resolveDepth, hd, hc, hp]

/-- Example arguments: explicit width, auto height and depth. -/
def argsMixed : Args :=
  ⟨"fb1", .str "640", .str "auto", .str "auto", "1", "4"⟩

/-- Example arguments: everything explicit. -/
def argsExplicit : Args :=
  ⟨"fb1", .str "640", .str "480", .str "16", "1", "4"⟩

/-- A healthy sysfs directory for device fb1. -/
def fsGood : SysFs := ⟨some "320,240", some "16"⟩

/-- Witness for C2 at concrete configurations: the explicit
configuration does zero size reads, the mixed one does exactly one and
resolves only the auto fields. -/
theorem check_args_geometry_reads_witness :
    (resolveSize argsExplicit fsGood).reads = 0
    ∧ (resolveSize argsMixed fsGood).reads = 1
    ∧ (resolveDepth argsMixed fsGood).reads = 1
    ∧ ∃ a1, (resolveSize argsMixed fsGood).result = .ok a1
        ∧ a1.width = .str "640" ∧ a1.height = .int 240 := by
  refine ⟨((check_args_geometry_reads argsExplicit fsGood).1 (by decide) (by decide)).1,
    ((check_args_geometry_reads argsMixed fsGood).2.1 (Or.inr (by decide))).1,
    ((check_args_geometry_reads argsMixed fsGood).2.2 (by decide)).1, ?_⟩
  obtain ⟨a1, hres, _, hwk, hh, _, _, _⟩ :=
    ((check_args_geometry_reads argsMixed fsGood).2.1 (Or.inr (by decide))).2
      "320,240" 320 240 rfl (by decide)
  exact ⟨a1, hres, hwk (by decide), hh (by decide)⟩

/-! ### Failure of geometry auto-detection (claim C3) -/

/-- Arguments with auto width but explicit height, exercising the
partially-auto read-failure path. -/
def argsAutoWidth : Args :=
  ⟨"fb1", .str "auto", .str "600", .str "16", "1", "4"⟩

/-- A sysfs directory whose descriptors cannot be read (`OSError`). -/
def fsAbsent : SysFs := ⟨none, none⟩

/-- Arguments with everything auto, for the malformed-content path. -/
def argsAllAuto : Args :=
  ⟨"fb1", .str "auto", .str "auto", .str "auto", "1", "4"⟩

/-- A sysfs directory with malformed descriptor contents. -/
def fsMalformed : SysFs := ⟨some "320x240", some "ab"⟩

/-- Claim C3 evaluated on the code: when the `virtual_size` read fails
with `OSError` while width is `'auto'`, `check_args` logs its warning
and then raises an unhandled `NameError` from the unbound local
`width` (fbstream.py lines 280-283) instead of completing normally;
malformed descriptor content raises an uncaught `ValueError` with no
warning at all; only the depth block with an `OSError` matches the
claimed warn-and-continue behaviour, leaving depth as the string
`'auto'`. -/
theorem geometry_failure_crashes :
    (resolveSize argsAutoWidth fsAbsent).result = .error .nameError
    ∧ (resolveSize argsAutoWidth fsAbsent).warnings = 1
    ∧ (resolveGeometry argsAutoWidth fsAbsent).result = .error .nameError
    ∧ (resolveSize argsAllAuto fsMalformed).result = .error .valueError
    ∧ (resolveSize argsAllAuto fsMalformed).warnings = 0
    ∧ (resolveDepth argsAllAuto fsAbsent).result = .ok argsAllAuto
    ∧ (resolveDepth argsAllAuto fsAbsent).warnings = 1
    ∧ argsAllAuto.depth = .str "auto" := by
  refine ⟨rfl, rfl, rfl, ?_, rfl, rfl, rfl, rfl⟩
  rfl

/-! ### Startup, readiness and the per-request memory map
(`StreamHandler.__init__`, `StreamHandler.stream`, `main`) -/

/-- Observable startup actions of `main`: `StreamHandler.__init__`
registers the single route and signals readiness (fbstream.py lines
101-106), then `start_server` starts the listener (lines 131-142).
No geometry validation happens anywhere on this path. -/
inductive StartEvent
  | routeRegistered (path : String)
  | readyNotified
  | serverStarted
deriving DecidableEq, Repr

/-- The actions of `StreamHandler.__init__`; the arguments are only
logged, never validated. -/
def streamHandlerInit (_a : Args) : List StartEvent :=
  [.routeRegistered "/stream", .readyNotified]

/-- The full startup sequence of `main`. -/
def startup (a : Args) : List StartEvent :=
  streamHandlerInit a ++ [.serverStarted]

/-- The `numpy.memmap` call of `StreamHandler.stream` (fbstream.py
lines 110-112): its shape `(height, width, depth)` needs integers; a
leftover string such as `'auto'` raises a `TypeError` at request time. -/
def memmapShape (a : Args) : Except PyErr (Int × Int × Int) :=
  match a.height, a.width, a.depth with
  | .int h, .int w, .int d => .ok (h, w, d)
  | _, _, _ => .error .typeError

/-- Arguments whose depth stayed `'auto'` after a failed
`bits_per_pixel` read, with width and height resolved. -/
def argsBadDepth : Args := ⟨"fb1", .int 320, .int 240, .str "auto", "1", "4"⟩

/-- Counterexample to claim C4: with depth still unresolved, startup
nevertheless signals readiness and starts the server; the FrameSource
open failure only happens later, per request. -/
theorem startup_serves_undefined_geometry :
    StartEvent.readyNotified ∈ startup argsBadDepth
    ∧ StartEvent.serverStarted ∈ startup argsBadDepth
    ∧ argsBadDepth.depth.isInt = false
    ∧ memmapShape argsBadDepth = .error .typeError := by
  refine ⟨?_, ?_, rfl, rfl⟩ <;> decide

/-- Claim C4 as amended: an unresolved (non-integer) geometry field
never stops startup — readiness is signalled and the server starts
regardless — and the failure surfaces as a `TypeError` from the
memory-map shape only when a stream request arrives. -/
theorem startup_ignores_geometry (a : Args) (h : a.depth.isInt = false) :
    startup a = [.routeRegistered "/stream", .readyNotified, .serverStarted]
    ∧ ∃ e, memmapShape a = .error e := by
  refine ⟨rfl, ?_⟩
  cases hd : a.depth with
  | str s =>
    cases a.height with
    | str _ => cases a.width <;> exact ⟨.typeError, by simp [memmapShape, hd]⟩
    | int _ => cases a.width <;> exact ⟨.typeError, by simp [memmapShape, hd]⟩
  | int n => rw [hd] at h; simp [ConfigVal.isInt] at h

/-- Witness for the amended C4 at the concrete unresolved-depth
configuration. -/
theorem startup_ignores_geometry_witness :
    startup argsBadDepth
      = [.routeRegistered "/stream", .readyNotified, .serverStarted]
    ∧ ∃ e, memmapShape argsBadDepth = .error e :=
  startup_ignores_geometry argsBadDepth (by decide)

/-! ### The per-connection stream trace
(`StreamHandler.stream`, fbstream.py lines 108-129) -/

/-- Observable actions of one `/stream` connection: the `numpy.memmap`
open, the `response.set_header` call, and the generator's per-tick
`sleep(0.1)` and `yield`. -/
inductive ConnEvent
  | openMap (path : String) (mode : String)
  | setHeader (key : String) (value : String)
  | sleep (ms : Nat)
  | emit (bytes : List Nat)
deriving DecidableEq, Repr

/-- The top-level response content type set on line 128. -/
def multipartHeaderValue : String := "multipart/x-mixed-replace; boundary=frame"

/-- One iteration of the `while True` loop of `get_frame` at tick `t`:
`sleep(0.1)` — 100 ms — first, then the yield of the framed chunk.
`fb t` is the PNG encoding of the framebuffer contents at tick `t`. -/
def tickEvents (fb : Nat → List Nat) (t : Nat) : List ConnEvent :=
  [.sleep 100, .emit (chunkBytes (fb t))]

/-- The trace of one connection through its first `n` ticks: the body
of `stream` runs the memmap open (line 110, mode `'r'`) and the header
assignment (line 128) once, then the generator's ticks. -/
def connTrace (device : String) (fb : Nat → List Nat) (n : Nat) : List ConnEvent :=
  [.openMap ("/dev/" ++ device) "r",
   .setHeader "Content-Type" multipartHeaderValue]
    ++ (List.range n).flatMap (tickEvents fb)

/-- Total milliseconds spent sleeping in a trace. -/
def sleepSum (l : List ConnEvent) : Nat :=
  (l.map (fun e => match e with | .sleep m => m | _ => 0)).sum

/-- Milliseconds of suspension accumulated when chunk `n` is emitted
(the trace through tick `n` ends with that chunk's emission). -/
def timeOfEmit (device : String) (fb : Nat → List Nat) (n : Nat) : Nat :=
  sleepSum (connTrace device fb (n + 1))

theorem sleepSum_append (l1 l2 : List ConnEvent) :
    sleepSum (l1 ++ l2) = sleepSum l1 + sleepSum l2 := by
  simp [sleepSum]

theorem connTrace_succ (device : String) (fb : Nat → List Nat) (n : Nat) :
    connTrace device fb (n + 1)
      = connTrace device fb n ++ [.sleep 100, .emit (chunkBytes (fb n))] := by
  simp [connTrace, List.range_succ, tickEvents]

theorem timeOfEmit_eq (device : String) (fb : Nat → List Nat) :
    ∀ n, timeOfEmit device fb n = 100 * (n + 1) := by
  intro n
  induction n with
  | zero =>
    simp [timeOfEmit, connTrace, sleepSum, tickEvents, List.range_succ]
  | succ k ih =>
    have h1 : timeOfEmit device fb (k + 1)
        = timeOfEmit device fb k + 100 := by
      simp [timeOfEmit, connTrace_succ device fb (k + 1), sleepSum_append, sleepSum]
    rw [h1, ih]
    ring

/-- Claim C5: every chunk, the first included, is produced only after a
full fixed 100 ms suspension; the accumulated suspension when chunk `n`
is emitted is `100·(n+1)` ms, so consecutive emissions are 100 ms apart
and the first chunk appears no earlier than 100 ms after the stream
starts. -/
theorem stream_pacing (device : String) (fb : Nat → List Nat) (n : Nat) :
    connTrace device fb (n + 1)
      = connTrace device fb n ++ [.sleep 100, .emit (chunkBytes (fb n))]
    ∧ timeOfEmit device fb n = 100 * (n + 1)
    ∧ timeOfEmit device fb (n + 1) = timeOfEmit device fb n + 100
    ∧ 100 ≤ timeOfEmit device fb 0 := by
  refine ⟨connTrace_succ device fb n, timeOfEmit_eq device fb n, ?_, ?_⟩
  · rw [timeOfEmit_eq device fb (n + 1), timeOfEmit_eq device fb n]
    ring
  · rw [timeOfEmit_eq device fb 0]

/-- Event classifiers for the trace. -/
def ConnEvent.isSetHeader : ConnEvent → Bool
  | .setHeader _ _ => true
  | _ => false

def ConnEvent.isOpen : ConnEvent → Bool
  | .openMap _ _ => true
  | _ => false

theorem tickEvents_no_header (fb : Nat → List Nat) (n : Nat) :
    ((List.range n).flatMap (tickEvents fb)).countP ConnEvent.isSetHeader = 0 := by
  induction n with
  | zero => rfl
  | succ k ih =>
    rw [List.range_succ, List.flatMap_append, List.countP_append, ih]
    rfl

theorem tickEvents_no_open (fb : Nat → List Nat) (n : Nat) :
    ((List.range n).flatMap (tickEvents fb)).countP ConnEvent.isOpen = 0 := by
  induction n with
  | zero => rfl
  | succ k ih =>
    rw [List.range_succ, List.flatMap_append, List.countP_append, ih]
    rfl

/-- The characters following the first occurrence of `pat`, if any. -/
def dropThrough (pat : List Char) : List Char → Option (List Char)
  | [] => none
  | c :: t =>
    if pat.isPrefixOf (c :: t) then some ((c :: t).drop pat.length)
    else dropThrough pat t

/-- Extract the boundary parameter of a content-type header value. -/
def boundaryOf (v : String) : Option String :=
  (dropThrough "boundary=".data v.data).map List.asString

/-- Claim C7: each connection sets the top-level response
`Content-Type` header to `multipart/x-mixed-replace; boundary=frame`
exactly once, as the action right after the map open and before any
chunk emission, and the `boundary=frame` parameter matches the
`--frame` marker beginning every chunk. -/
theorem stream_sets_header_once (device : String) (fb : Nat → List Nat) (n : Nat) :
    (connTrace device fb n).countP ConnEvent.isSetHeader = 1
    ∧ (connTrace device fb n).get? 1
        = some (.setHeader "Content-Type" multipartHeaderValue)
    ∧ (∀ k bs, (connTrace device fb n).get? k = some (.emit bs) → 2 ≤ k)
    ∧ boundaryOf multipartHeaderValue = some "frame"
    ∧ ∀ png, (strToBytes "--frame").isPrefixOf (chunkBytes png) = true := by
  refine ⟨?_, rfl, ?_, rfl, ?_⟩
  · show ([ConnEvent.openMap ("/dev/" ++ device) "r",
      ConnEvent.setHeader "Content-Type" multipartHeaderValue]
        ++ (List.range n).flatMap (tickEvents fb)).countP ConnEvent.isSetHeader = 1
    rw [List.countP_append, tickEvents_no_header]
    rfl
  · intro k bs hk
    match k with
    | 0 => simp [connTrace] at hk
    | 1 => simp [connTrace] at hk
    | m + 2 => omega
  · intro png
    have hdec : chunkBytes png = chunkHead ++ (png ++ CRLF) := chunkBytes_decompose png
    rw [hdec]
    have hpre : chunkHead = strToBytes "--frame" ++ (strToBytes "\r\nContent-Type: image/png\r\n\r\n") := by
      decide
    rw [hpre, List.append_assoc]
    have : ∀ (p rest : List Nat), p.isPrefixOf (p ++ rest) = true := by
      intro p
      induction p with
      | nil => intro rest; simp [List.isPrefixOf]
      | cons a t ih =>
        intro rest
        simp [List.isPrefixOf, ih]
    exact this (strToBytes "--frame") _

/-- A trivial framebuffer content stream for witnesses. -/
def fbZero : Nat → List Nat := fun _ => []

/-- Witness for C7 at a concrete device, framebuffer and tick count. -/
theorem stream_sets_header_once_witness :
    (connTrace "fb1" fbZero 2).countP ConnEvent.isSetHeader = 1
    ∧ 2 ≤ 3
    ∧ (strToBytes "--frame").isPrefixOf (chunkBytes (fbZero 0)) = true := by
  refine ⟨(stream_sets_header_once "fb1" fbZero 2).1, ?_, ?_⟩
  · exact (stream_sets_header_once "fb1" fbZero 2).2.2.1 3 (chunkBytes (fbZero 0)) (by decide)
  · exact (stream_sets_header_once "fb1" fbZero 2).2.2.2.2 (fbZero 0)

/-! ### Stream sessions never end and never share state (claim C6) -/

/-- One step of the `while True` generator from tick `t`: it always
yields a chunk and advances to tick `t + 1` — there is no `break`,
`return` or `StopIteration` in `get_frame`. -/
def genStep (fb : Nat → List Nat) (t : Nat) : Option (List Nat × Nat) :=
  some (chunkBytes (fb t), t + 1)

/-- Drive the generator `n` requests forward from tick `t`; `none`
would mean the generator terminated of its own accord. -/
def genRun (fb : Nat → List Nat) : Nat → Nat → Option Nat
  | t, 0 => some t
  | t, n + 1 =>
    match genStep fb t with
    | none => none
    | some (_, t1) => genRun fb t1 n

/-- Every call to `stream` builds a brand-new generator starting at
tick zero; the server session state is the list of per-connection
ticks. -/
def newConnTick : Nat := 0

/-- Accepting a connection appends a fresh tick-zero session. -/
def acceptConn (conns : List Nat) : List Nat := conns ++ [newConnTick]

/-- Serving one tick of connection `i` advances only that connection. -/
def serveTick (conns : List Nat) (i : Nat) : List Nat :=
  conns.set i (conns.getD i 0 + 1)

theorem genRun_isSome (fb : Nat → List Nat) :
    ∀ (n t : Nat), (genRun fb t n).isSome = true := by
  intro n
  induction n with
  | zero => intro t; rfl
  | succ k ih => intro t; exact ih (t + 1)

theorem serveTick_get_ne (conns : List Nat) (i j : Nat) (hij : i ≠ j) :
    (serveTick conns i).get? j = conns.get? j := by
  unfold serveTick
  induction conns generalizing i j with
  | nil => simp
  | cons a t ih =>
    cases i with
    | zero =>
      cases j with
      | zero => exact absurd rfl hij
      | succ m => simp [List.set]
    | succ k =>
      cases j with
      | zero => simp [List.set]
      | succ m =>
        have hkm : k ≠ m := fun h => hij (by rw [h])
        simpa [List.set] using ih k m hkm

/-- Claim C6: the per-connection frame sequence never ends on its own
(any number of successive chunk requests succeeds), every accepted
connection starts a brand-new session at tick zero, and serving one
connection leaves every other connection's tick untouched. -/
theorem stream_infinite_independent (fb : Nat → List Nat) (t n : Nat)
    (conns : List Nat) (i j : Nat) (hij : i ≠ j) :
    (genRun fb t n).isSome = true
    ∧ (acceptConn conns).getLast? = some 0
    ∧ genStep fb t = some (chunkBytes (fb t), t + 1)
    ∧ (serveTick conns i).get? j = conns.get? j := by
  refine ⟨genRun_isSome fb n t, ?_, rfl, serveTick_get_ne conns i j hij⟩
  simp [acceptConn, newConnTick]

/-- Witness for C6 at a concrete session list. -/
theorem stream_infinite_independent_witness :
    (genRun fbZero 0 5).isSome = true
    ∧ (acceptConn [3, 7]).getLast? = some 0
    ∧ (serveTick [3, 7] 0).get? 1 = [3, 7].get? 1 :=
  ⟨(stream_infinite_independent fbZero 0 5 [3, 7] 0 1 (by decide)).1,
   (stream_infinite_independent fbZero 0 5 [3, 7] 0 1 (by decide)).2.1,
   (stream_infinite_independent fbZero 0 5 [3, 7] 0 1 (by decide)).2.2.2⟩

/-! ### The memory map is opened per connection (claim C8) -/

/-- The resource trace of a whole process run that serves one
connection per entry of `conns` (entry = number of ticks served):
every `stream` call performs its own `numpy.memmap` open. -/
def processTrace (device : String) (fb : Nat → List Nat) (conns : List Nat) :
    List ConnEvent :=
  conns.flatMap (connTrace device fb)

theorem connTrace_open_count (device : String) (fb : Nat → List Nat) (n : Nat) :
    (connTrace device fb n).countP ConnEvent.isOpen = 1 := by
  show ([ConnEvent.openMap ("/dev/" ++ device) "r",
    ConnEvent.setHeader "Content-Type" multipartHeaderValue]
      ++ (List.range n).flatMap (tickEvents fb)).countP ConnEvent.isOpen = 1
  rw [List.countP_append, tickEvents_no_open]
  rfl

theorem connTrace_open_shape (device : String) (fb : Nat → List Nat) (n : Nat) :
    ∀ e ∈ connTrace device fb n, e.isOpen = true →
      e = .openMap ("/dev/" ++ device) "r" := by
  intro e he hopen
  rcases List.mem_append.mp he with hpre | htick
  · rcases List.mem_cons.mp hpre with h1 | h2
    · exact h1
    · have : e = ConnEvent.setHeader "Content-Type" multipartHeaderValue := by
        simpa using h2
      rw [this] at hopen
      simp [ConnEvent.isOpen] at hopen
  · rcases List.mem_flatMap.mp htick with ⟨t, _, hmem⟩
    rcases List.mem_cons.mp hmem with h1 | h2
    · rw [h1] at hopen; simp [ConnEvent.isOpen] at hopen
    · have : e = ConnEvent.emit (chunkBytes (fb t)) := by simpa using h2
      rw [this] at hopen
      simp [ConnEvent.isOpen] at hopen

/-- Counterexample to claim C8: a run that serves two connections opens
the device memory map twice, not at most once per process. -/
theorem memmap_opened_twice :
    (processTrace "fb1" fbZero [1, 1]).countP ConnEvent.isOpen = 2
    ∧ ¬ (processTrace "fb1" fbZero [1, 1]).countP ConnEvent.isOpen ≤ 1 := by
  refine ⟨?_, ?_⟩ <;> decide

/-- Claim C8 as amended: the map is opened exactly once per connection
— never again per frame, so the open count equals the number of served
connections — and every open is of `/dev/<device>` in read-only mode. -/
theorem memmap_open_per_connection (device : String) (fb : Nat → List Nat)
    (conns : List Nat) :
    (processTrace device fb conns).countP ConnEvent.isOpen = conns.length
    ∧ ∀ e ∈ processTrace device fb conns, e.isOpen = true →
        e = .openMap ("/dev/" ++ device) "r" := by
  constructor
  · induction conns with
    | nil => rfl
    | cons n rest ih =>
      show ((connTrace device fb n) ++ processTrace device fb rest).countP
        ConnEvent.isOpen = (n :: rest).length
      rw [List.countP_append, connTrace_open_count, ih]
      simp [Nat.add_comm]
  · intro e he hopen
    rcases List.mem_flatMap.mp he with ⟨n, _, hmem⟩
    exact connTrace_open_shape device fb n e hmem hopen

/-- Witness for the amended C8 at a concrete two-connection run. -/
theorem memmap_open_per_connection_witness :
    (processTrace "fb1" fbZero [2, 1]).countP ConnEvent.isOpen = 2
    ∧ ConnEvent.openMap "/dev/fb1" "r" = .openMap ("/dev/" ++ "fb1") "r" :=
  ⟨(memmap_open_per_connection "fb1" fbZero [2, 1]).1,
   (memmap_open_per_connection "fb1" fbZero [2, 1]).2
     (.openMap "/dev/fb1" "r") (by decide) (by decide)⟩

/-! ### The HTTP listener (claim C9, `start_server`, lines 131-142) -/

/-- The listener configuration `start_server` passes to `run`: host and
port are written literally in the call; the route table was filled by
`__init__` with the single `GET /stream` route (line 101; bottle's
default method is GET). Only the thread counts come from the merged
configuration. -/
structure ServerConfig where
  host : String
  port : Nat
  routes : List (String × String)
  minthreads : String
  maxthreads : String
deriving DecidableEq, Repr

/-- Model of `self.run(host='0.0.0.0', port=8808, ...)` (fbstream.py line 140). -/
def start_server_config (a : Args) : ServerConfig :=
  { host := "0.0.0.0", port := 8808, routes := [("GET", "/stream")],
    minthreads := a.minthreads, maxthreads := a.maxthreads }

/-- Two configurations differing in every merged setting. -/
def argsAlpha : Args := ⟨"fb0", .int 1, .int 2, .int 16, "1", "4"⟩

def argsBeta : Args := ⟨"fb9", .str "800", .str "600", .str "32", "2", "8"⟩

/-- Counterexample to claim C9: the listening port is not configurable —
it is the literal 8808 for every configuration, as the two maximally
different configurations show. -/
theorem port_not_configurable :
    (∀ a : Args, (start_server_config a).port = 8808)
    ∧ argsAlpha ≠ argsBeta
    ∧ (start_server_config argsAlpha).port = (start_server_config argsBeta).port :=
  ⟨fun _ => rfl, by decide, rfl⟩

/-- Claim C9 as amended: the server exposes exactly one route,
`GET /stream`, listens on all interfaces, and listens on the fixed,
non-configurable port 8808. -/
theorem server_single_route_fixed_port (a : Args) :
    (start_server_config a).routes = [("GET", "/stream")]
    ∧ (start_server_config a).host = "0.0.0.0"
    ∧ (start_server_config a).port = 8808 :=
  ⟨rfl, rfl, rfl⟩

/-! ### Explicit geometry values pass through unvalidated (claim C10) -/

/-- The shape tuple handed to `numpy.memmap` (fbstream.py lines
111-112), taken verbatim from the resolved argument fields in the order
`(height, width, depth)`. -/
def memmapShapeVals (a : Args) : ConfigVal × ConfigVal × ConfigVal :=
  (a.height, a.width, a.depth)

/-- Claim C10: explicitly supplied width/height/depth survive
`check_args` untouched — still strings, with no integer conversion and
no positivity check — and those very values are what later shapes the
device memory map, while auto-detected fields are stored as parsed
integers. -/
theorem explicit_values_pass_through (a : Args) (fs : SysFs) :
    (a.width.isAuto = false → a.height.isAuto = false → a.depth.isAuto = false →
      (resolveGeometry a fs).result = .ok a
      ∧ (resolveGeometry a fs).sizeReads = 0
      ∧ (resolveGeometry a fs).depthReads = 0
      ∧ ∀ a1, (resolveGeometry a fs).result = .ok a1 →
          memmapShapeVals a1 = (a.height, a.width, a.depth))
    ∧ (∀ c w h, a.width.isAuto = true → fs.virtual_size = some c →
        parseSizePair c = some (w, h) →
        ∃ a1, (resolveSize a fs).result = .ok a1 ∧ a1.width = .int w) := by
  constructor
  · intro hw hh hd
    have hsz : resolveSize a fs = ⟨.ok a, 0, 0⟩ := by
      simp [resolveSize, hw, hh]
    have hdp : resolveDepth a fs = ⟨.ok a, 0, 0⟩ := by
      simp [resolveDepth, hd]
    have hgeo : resolveGeometry a fs = ⟨.ok a, 0, 0, 0⟩ := by
      simp [resolveGeometry, hsz, hdp]
    refine ⟨by rw [hgeo], by rw [hgeo], by rw [hgeo], ?_⟩
    intro a1 ha1
    rw [hgeo] at ha1
    cases ha1
    rfl
  · intro c w h hw hc hp
    have hcond : (a.width.isAuto || a.height.isAuto) = true := by simp [hw]
    refine ⟨{ a with
        width := if a.width.isAuto then .int w else a.width,
        height := if a.height.isAuto then .int h else a.height }, ?_, ?_⟩
    · simp [resolveSize, hcond, hc, hp]
    · simp [hw]

/-- Nonsense explicit values: a non-numeric width, a zero height and a
negative depth, all accepted unchanged. -/
def argsNasty : Args := ⟨"fb1", .str "banana", .str "0", .str "-7", "1", "4"⟩

/-- Witness for C10: the nonsense explicit configuration passes
`check_args` geometry untouched and shapes the map, and an auto width
is stored as a parsed integer. -/
theorem explicit_values_pass_through_witness :
    (resolveGeometry argsNasty fsGood).result = .ok argsNasty
    ∧ memmapShapeVals argsNasty = (.str "0", .str "banana", .str "-7")
    ∧ ∃ a1, (resolveSize argsAllAuto fsGood).result = .ok a1 ∧ a1.width = .int 320 := by
  have h := explicit_values_pass_through argsNasty fsGood
  have h1 := h.1 (by decide) (by decide) (by decide)
  refine ⟨h1.1, ?_, ?_⟩
  · exact h1.2.2.2 argsNasty h1.1
  · exact (explicit_values_pass_through argsAllAuto fsGood).2
      "320,240" 320 240 (by decide) rfl (by decide)
